import Mathlib

/-!
Shallow embedding of the music-bot core (music search pipeline, track model,
search-session cache, pagination handlers) and proofs about its spec.

Python sources embedded:
  * src/models/track.py           — the `Track` dataclass and its derived getters
  * src/services/music_service.py — provider normalization, deduplication, ranking, search
  * src/db/search_cache.py        — the per-user search-session cache
  * src/handlers/search.py        — next_page / prev_page cursor logic
  * src/config.py                 — MAX_RESULTS_PER_PAGE

The third-party fuzzy string metrics (fuzzywuzzy's `fuzz.ratio` and
`fuzz.partial_ratio`) are not part of this repository; they are modelled as
abstract score functions `String → String → Nat` passed as parameters, so every
theorem quantifies over all possible metrics.
-/

namespace MusicBot

/-- The `Track` dataclass of src/models/track.py: nine fields, the six URL/metadata
fields optional with default `None`. -/
structure Track where
  title : String
  artist : String
  duration : Int
  preview_url : Option String := none
  audio_url : Option String := none
  album : Option String := none
  artwork_url : Option String := none
  track_id : Option String := none
  source : Option String := none
deriving Repr, DecidableEq

/-- Python's `a or b` on optional strings: `a` is falsy when it is `None` or the
empty string, in which case the expression evaluates to `b` unchanged. -/
def pyOr (a b : Option String) : Option String :=
  match a with
  | some s => if s = "" then b else some s
  | none => b

/-- Embeds `Track.download_url` (src/models/track.py line 35): `self.audio_url or self.preview_url`. -/
def Track.download_url (t : Track) : Option String :=
  pyOr t.audio_url t.preview_url

/-- Does `needle` occur at the head of `hay`? (Helper for the substring test.) -/
def startsWithChars : List Char → List Char → Bool
  | [], _ => true
  | _ :: _, [] => false
  | a :: as, b :: bs => a == b && startsWithChars as bs

/-- Does `needle` occur contiguously anywhere in `hay`? -/
def hasSubChars (needle : List Char) : List Char → Bool
  | [] => startsWithChars needle []
  | b :: rest => startsWithChars needle (b :: rest) || hasSubChars needle rest

/-- Python substring test `needle in hay` on strings, via character lists. -/
def strIn (needle hay : String) : Bool :=
  hasSubChars needle.toList hay.toList

/-- Embeds `calculate_score` inside `MusicService._sort_by_relevance`
(src/services/music_service.py lines 203-221), parametrized by the fuzzy
partial-ratio metric `pz`.  `query_lower` is the already-lowercased query. -/
def calculate_score (pz : String → String → Nat) (query_lower : String) (t : Track) : Nat :=
  let title_lower := t.title.toLower
  let artist_lower := t.artist.toLower
  let title_score := pz query_lower title_lower
  let artist_score := pz query_lower artist_lower
  let combined_score := pz query_lower (artist_lower ++ " " ++ title_lower)
  let exact_bonus := if strIn query_lower title_lower || strIn query_lower artist_lower then 20 else 0
  max title_score (max artist_score combined_score) + exact_bonus

/-- Embeds `MusicService._sort_by_relevance` (src/services/music_service.py lines 199-224):
Python's `sorted(tracks, key=calculate_score, reverse=True)` is the stable
descending sort by score, i.e. a merge sort under `score b ≤ score a`. -/
def sort_by_relevance (pz : String → String → Nat) (tracks : List Track) (query : String) : List Track :=
  let query_lower := query.toLower
  tracks.mergeSort (fun a b => calculate_score pz query_lower b ≤ calculate_score pz query_lower a)

/-- The normalized key `f"{track.title.lower().strip()}_{track.artist.lower().strip()}"`
of `MusicService._deduplicate_tracks` (src/services/music_service.py line 181). -/
def track_key (t : Track) : String :=
  t.title.toLower.trim ++ "_" ++ t.artist.toLower.trim

/-- The scan loop of `MusicService._deduplicate_tracks`
(src/services/music_service.py lines 173-197), parametrized by the fuzzy ratio
metric `fz`; `seen` is the set of keys of already-accepted tracks (a list here:
only membership in the existential similarity test matters). -/
def dedup_go (fz : String → String → Nat) : List Track → List String → List Track
  | [], _ => []
  | t :: rest, seen =>
    let key := track_key t
    let is_duplicate := seen.any (fun seen_key => 85 < fz key seen_key)
    if is_duplicate then dedup_go fz rest seen
    else t :: dedup_go fz rest (key :: seen)

/-- Embeds `MusicService._deduplicate_tracks`: scan with an initially empty accepted-key set. -/
def deduplicate_tracks (fz : String → String → Nat) (tracks : List Track) : List Track :=
  dedup_go fz tracks []

/-- Python slice `l[:stop]` for an `int` stop: nonnegative stops truncate, negative
stops drop `-stop` elements from the end (clamped at the empty list). -/
def pySliceTo (l : List Track) (stop : Int) : List Track :=
  if 0 ≤ stop then l.take stop.toNat else l.take (l.length - (-stop).toNat)

/-- Embeds `MusicService.search` (src/services/music_service.py lines 30-63) after the
provider fan-out: each provider outcome is either a track list or an exception
(logged and dropped); the combined list is deduplicated, ranked, and cut to
`limit` by Python slicing.  The function is total: no code path raises. -/
def search (fz pz : String → String → Nat)
    (itunes_result deezer_result : Except String (List Track))
    (query : String) (limit : Int) : List Track :=
  let all_tracks :=
    (match itunes_result with | .ok l => l | .error _ => []) ++
    (match deezer_result with | .ok l => l | .error _ => [])
  let unique_tracks := deduplicate_tracks fz all_tracks
  let sorted_tracks := sort_by_relevance pz unique_tracks query
  pySliceTo sorted_tracks limit

/-- One raw iTunes result item (the fields `MusicService._search_itunes` reads).
A field is `none` when the key is absent from the upstream JSON object. -/
structure ItunesItem where
  trackName : Option String := none
  artistName : Option String := none
  trackTimeMillis : Option Int := none
  previewUrl : Option String := none
  collectionName : Option String := none
  artworkUrl100 : Option String := none
  trackId : Option Int := none
deriving Repr, DecidableEq

/-- Track construction in `MusicService._search_itunes`
(src/services/music_service.py lines 101-112): `item.get(key, default)` falls
back to the default only when the key is absent; `str(item.get("trackId", ""))`
renders the numeric id; `trackTimeMillis // 1000` is Python floor division. -/
def itunes_track (item : ItunesItem) : Track :=
  { title := item.trackName.getD "Unknown"
    artist := item.artistName.getD "Unknown"
    duration := (item.trackTimeMillis.getD 0).fdiv 1000
    preview_url := item.previewUrl
    audio_url := item.previewUrl
    album := item.collectionName
    artwork_url := item.artworkUrl100
    track_id := some (match item.trackId with | some n => toString n | none => "")
    source := some "itunes" }

/-- The nested `artist` object of a Deezer item. -/
structure DeezerArtist where
  name : Option String := none
deriving Repr, DecidableEq

/-- The nested `album` object of a Deezer item. -/
structure DeezerAlbum where
  title : Option String := none
  cover_medium : Option String := none
deriving Repr, DecidableEq

/-- One raw Deezer result item (the fields `MusicService._search_deezer` reads). -/
structure DeezerItem where
  title : Option String := none
  artist : Option DeezerArtist := none
  duration : Option Int := none
  preview : Option String := none
  album : Option DeezerAlbum := none
  id : Option Int := none
deriving Repr, DecidableEq

/-- Track construction in `MusicService._search_deezer`
(src/services/music_service.py lines 147-158): `item.get("artist", {}).get("name",
"Unknown")` falls back to the sentinel when the artist object or its name key is
absent. -/
def deezer_track (item : DeezerItem) : Track :=
  { title := item.title.getD "Unknown"
    artist := (item.artist.bind (fun a => a.name)).getD "Unknown"
    duration := item.duration.getD 0
    preview_url := item.preview
    audio_url := item.preview
    album := item.album.bind (fun a => a.title)
    artwork_url := item.album.bind (fun a => a.cover_medium)
    track_id := some (match item.id with | some n => toString n | none => "")
    source := some "deezer" }

/-! ## Search-session cache (src/db/search_cache.py) -/

/-- A JSON value as stored in the cache's serialized track dictionaries. -/
inductive JVal where
  | jstr : String → JVal
  | jint : Int → JVal
  | jnull : JVal
deriving Repr, DecidableEq

/-- Serialize an optional string field the way `json.dumps` renders it. -/
def jopt : Option String → JVal
  | some s => .jstr s
  | none => .jnull

/-- The nine-field dictionary built for each track in
`SearchCacheRepository.save_search` (src/db/search_cache.py lines 53-65). -/
def track_to_dict (t : Track) : List (String × JVal) :=
  [("title", .jstr t.title),
   ("artist", .jstr t.artist),
   ("duration", .jint t.duration),
   ("preview_url", jopt t.preview_url),
   ("audio_url", jopt t.audio_url),
   ("album", jopt t.album),
   ("artwork_url", jopt t.artwork_url),
   ("track_id", jopt t.track_id),
   ("source", jopt t.source)]

/-- Key lookup in a JSON dictionary. -/
def jget (d : List (String × JVal)) (k : String) : Option JVal :=
  (d.find? (fun p => p.1 == k)).map (fun p => p.2)

/-- Read a required string field. -/
def jstr? (v : Option JVal) : Option String :=
  match v with
  | some (.jstr s) => some s
  | _ => none

/-- Read a required integer field. -/
def jint? (v : Option JVal) : Option Int :=
  match v with
  | some (.jint n) => some n
  | _ => none

/-- Read an optional (nullable) string field. -/
def jostr? (v : Option JVal) : Option (Option String) :=
  match v with
  | some (.jstr s) => some (some s)
  | some .jnull => some none
  | _ => none

/-- Embeds `Track(**track_data)` in `SearchCacheRepository.get_cached_tracks`
(src/db/search_cache.py line 103): rebuild a `Track` from a stored dictionary;
`none` models the failure raised on a malformed dictionary. -/
def track_from_dict (d : List (String × JVal)) : Option Track :=
  match jstr? (jget d "title"), jstr? (jget d "artist"), jint? (jget d "duration"),
        jostr? (jget d "preview_url"), jostr? (jget d "audio_url"), jostr? (jget d "album"),
        jostr? (jget d "artwork_url"), jostr? (jget d "track_id"), jostr? (jget d "source") with
  | some title, some artist, some duration, some p, some a, some al, some aw, some tid, some src =>
    some { title := title, artist := artist, duration := duration, preview_url := p,
           audio_url := a, album := al, artwork_url := aw, track_id := tid, source := src }
  | _, _, _, _, _, _, _, _, _ => none

/-- The JSON array `save_search` serializes (order preserved). -/
def tracks_to_json (ts : List Track) : List (List (String × JVal)) :=
  ts.map track_to_dict

/-- The list comprehension of `get_cached_tracks`: rebuild every track, failing
if any dictionary is malformed. -/
def tracks_from_json : List (List (String × JVal)) → Option (List Track)
  | [] => some []
  | d :: rest =>
    match track_from_dict d, tracks_from_json rest with
    | some t, some ts => some (t :: ts)
    | _, _ => none

/-- One row of the `search_cache` table (the `SearchCache` model,
src/db/search_cache.py lines 15-31).  `created_at` is a timestamp in seconds
(`Int`, as `datetime` does not truncate); `results` holds the serialized JSON
array of track dictionaries. -/
structure CacheRow where
  id : Nat
  user_id : Int
  query : String
  results : List (List (String × JVal))
  current_offset : Int
  created_at : Int
deriving Repr, DecidableEq

/-- The database state: the rows of `search_cache` plus the autoincrement counter. -/
structure CacheState where
  rows : List CacheRow
  next_id : Nat
deriving Repr, DecidableEq

/-- Embeds `CACHE_EXPIRY_HOURS = 1`, in seconds. -/
def CACHE_EXPIRY_SECONDS : Int := 3600

/-- Row freshness filter of `get_user_cache`: `created_at > now - 1 hour`. -/
def row_fresh (now : Int) (r : CacheRow) : Bool :=
  now - CACHE_EXPIRY_SECONDS < r.created_at

/-- Embeds `SearchCacheRepository.get_user_cache` (src/db/search_cache.py lines 80-93):
select the user's non-expired rows, order by `created_at` descending, take one.
The fold returns the first row with maximal `created_at`. -/
def get_user_cache (st : CacheState) (u : Int) (now : Int) : Option CacheRow :=
  let fresh := st.rows.filter (fun r => r.user_id == u && row_fresh now r)
  fresh.foldl
    (fun acc r =>
      match acc with
      | none => some r
      | some b => if b.created_at < r.created_at then some r else some b)
    none

/-- Embeds `SearchCacheRepository.delete_user_cache` (src/db/search_cache.py lines 117-128):
remove every row of the user. -/
def delete_user_cache (st : CacheState) (u : Int) : CacheState :=
  { st with rows := st.rows.filter (fun r => !(r.user_id == u)) }

/-- Embeds `SearchCacheRepository.save_search` (src/db/search_cache.py lines 42-78):
delete the user's old rows, then insert a fresh row with the serialized tracks,
offset 0 and `created_at = now`. -/
def save_search (st : CacheState) (u : Int) (q : String) (ts : List Track) (now : Int) : CacheState :=
  let st' := delete_user_cache st u
  { rows := st'.rows ++
      [{ id := st.next_id, user_id := u, query := q, results := tracks_to_json ts,
         current_offset := 0, created_at := now }],
    next_id := st.next_id + 1 }

/-- Embeds `SearchCacheRepository.get_cached_tracks` (src/db/search_cache.py lines 95-103). -/
def get_cached_tracks (st : CacheState) (u : Int) (now : Int) : Option (List Track) :=
  match get_user_cache st u now with
  | none => none
  | some cache => tracks_from_json cache.results

/-- Embeds `SearchCacheRepository.update_offset` (src/db/search_cache.py lines 105-111):
mutate the current row's offset in place; no-op when the session is absent. -/
def update_offset (st : CacheState) (u : Int) (offset : Int) (now : Int) : CacheState :=
  match get_user_cache st u now with
  | none => st
  | some cache =>
    { st with rows := st.rows.map (fun r => if r.id == cache.id then { r with current_offset := offset } else r) }

/-- Embeds `SearchCacheRepository.get_offset` (src/db/search_cache.py lines 113-115). -/
def get_offset (st : CacheState) (u : Int) (now : Int) : Int :=
  match get_user_cache st u now with
  | none => 0
  | some cache => cache.current_offset

/-! ## Pagination handlers (src/handlers/search.py) -/

/-- Embeds `Config.MAX_RESULTS_PER_PAGE` (src/config.py line 50). -/
def MAX_RESULTS_PER_PAGE : Int := 5

/-- Embeds `next_page` (src/handlers/search.py lines 203-235), restricted to its cache
effect: if the user or the cached tracks are missing/empty, nothing changes;
otherwise the cursor advances by the page size unless the new offset would reach
or pass the end of the list. -/
def next_page (st : CacheState) (u : Int) (user_exists : Bool) (now : Int) : CacheState :=
  match user_exists, get_cached_tracks st u now with
  | true, some (t :: ts) =>
    let tracks := t :: ts
    let current_offset := get_offset st u now
    let new_offset := current_offset + MAX_RESULTS_PER_PAGE
    if (tracks.length : Int) ≤ new_offset then st
    else update_offset st u new_offset now
  | _, _ => st

/-- Embeds `prev_page` (src/handlers/search.py lines 238-264), restricted to its cache
effect: if the user or the cached tracks are missing/empty, nothing changes;
otherwise the cursor retreats by the page size, floored at 0, unconditionally. -/
def prev_page (st : CacheState) (u : Int) (user_exists : Bool) (now : Int) : CacheState :=
  match user_exists, get_cached_tracks st u now with
  | true, some (t :: ts) =>
    let _tracks := t :: ts
    let current_offset := get_offset st u now
    let new_offset := max 0 (current_offset - MAX_RESULTS_PER_PAGE)
    update_offset st u new_offset now
  | _, _ => st

/-! ## Sample fixtures used by witnesses and counterexamples -/

/-- A minimal track used by concrete witnesses. -/
def sampleTrack : Track := { title := "s", artist := "a", duration := 1 }

/-- A cache row holding one serialized track for user 1, cursor 0, created at time 0. -/
def sampleRow : CacheRow :=
  { id := 0, user_id := 1, query := "q", results := tracks_to_json [sampleTrack],
    current_offset := 0, created_at := 0 }

/-- A cache state holding exactly `sampleRow`. -/
def sampleState : CacheState := { rows := [sampleRow], next_id := 1 }

/-- A cache row for user 1 with cursor 7, created at time 0, no tracks. -/
def agedRow : CacheRow :=
  { id := 0, user_id := 1, query := "q", results := [], current_offset := 7, created_at := 0 }

/-- A cache state holding exactly `agedRow`. -/
def agedState : CacheState := { rows := [agedRow], next_id := 1 }

/-! ## Theorems -/

/-- C10 counterexample: the claim says a track with no usable `audio_url` and an
empty-string `preview_url` has an absent `download_url`; the code returns the
empty string itself (`None or ""` evaluates to `""` in Python). -/
theorem C10_download_url_counterexample :
    Track.download_url
      { title := "t", artist := "a", duration := 0, preview_url := some "", audio_url := none }
      = some ""
    ∧ (some "" : Option String) ≠ none := by
  constructor
  · rfl
  · simp

/-- C10 amended: `download_url` returns `audio_url` when it is a non-empty
string; otherwise (absent or empty `audio_url`) it returns `preview_url`
unchanged — in particular an empty-string `preview_url` is returned as the empty
string, not as absent. -/
theorem C10_download_url_amended (t : Track) :
    (∀ s, t.audio_url = some s → s ≠ "" → t.download_url = some s)
    ∧ (t.audio_url = none ∨ t.audio_url = some "" → t.download_url = t.preview_url) := by
  constructor
  · intro s hs hne
    simp [Track.download_url, pyOr, hs, hne]
  · rintro (h | h) <;> simp [Track.download_url, pyOr, h]

/-- C10 amended witness at concrete tracks. -/
theorem C10_download_url_amended_witness :
    ({ title := "t", artist := "a", duration := 0, audio_url := some "u",
       preview_url := some "p" } : Track).download_url = some "u"
    ∧ ({ title := "t", artist := "a", duration := 0, audio_url := some "",
         preview_url := some "p" } : Track).download_url = some "p" := by
  refine ⟨(C10_download_url_amended _).1 "u" rfl (by simp), ?_⟩
  exact (C10_download_url_amended
    { title := "t", artist := "a", duration := 0, audio_url := some "",
      preview_url := some "p" }).2 (Or.inr rfl)

/-- C3 counterexample: an upstream iTunes item whose `trackName` key is present
but holds the empty string produces a Track with an empty (blank) title — the
sentinel is substituted only for a missing key, so the claimed invariant that no
constructed Track carries a blank title fails. -/
theorem C3_sentinel_counterexample :
    (itunes_track { trackName := some "", artistName := some "X" }).title = ""
    ∧ "" ≠ "Unknown" := by
  constructor
  · rfl
  · simp

/-- C3 amended: in both providers the sentinel "Unknown" is substituted exactly
when the upstream key is missing; a present value (even the empty string) is
kept verbatim, so empty upstream titles/artists survive as empty. -/
theorem C3_sentinel_amended (it : ItunesItem) (dz : DeezerItem) :
    (it.trackName = none → (itunes_track it).title = "Unknown")
    ∧ (∀ s, it.trackName = some s → (itunes_track it).title = s)
    ∧ (it.artistName = none → (itunes_track it).artist = "Unknown")
    ∧ (∀ s, it.artistName = some s → (itunes_track it).artist = s)
    ∧ (dz.title = none → (deezer_track dz).title = "Unknown")
    ∧ (∀ s, dz.title = some s → (deezer_track dz).title = s)
    ∧ (dz.artist.bind (fun a => a.name) = none → (deezer_track dz).artist = "Unknown")
    ∧ (∀ s, dz.artist.bind (fun a => a.name) = some s → (deezer_track dz).artist = s) := by
  refine ⟨?_, ?_, ?_, ?_, ?_, ?_, ?_, ?_⟩ <;>
    first
      | (intro h; simp [itunes_track, deezer_track, h])
      | (intro s h; simp [itunes_track, deezer_track, h])

/-- C3 amended witness: on an item with no keys at all, both fields fall back to
the sentinel; on fully populated items the upstream values survive. -/
theorem C3_sentinel_amended_witness :
    (itunes_track {}).title = "Unknown"
    ∧ (itunes_track { trackName := some "Song" }).title = "Song"
    ∧ (deezer_track {}).artist = "Unknown"
    ∧ (deezer_track { artist := some { name := some "Band" } }).artist = "Band" := by
  refine ⟨(C3_sentinel_amended {} {}).1 rfl,
          (C3_sentinel_amended { trackName := some "Song" } {}).2.1 "Song" rfl,
          (C3_sentinel_amended {} {}).2.2.2.2.2.2.1 rfl,
          (C3_sentinel_amended {} { artist := some { name := some "Band" } }).2.2.2.2.2.2.2 "Band" rfl⟩

/-- One stored dictionary deserializes back to the exact track it came from. -/
theorem track_roundtrip (t : Track) : track_from_dict (track_to_dict t) = some t := by
  cases t with
  | mk title artist duration p a al aw tid src =>
    cases p <;> cases a <;> cases al <;> cases aw <;> cases tid <;> cases src <;> rfl

/-- A serialized track list deserializes to exactly the original list. -/
theorem tracks_roundtrip (ts : List Track) :
    tracks_from_json (tracks_to_json ts) = some ts := by
  induction ts with
  | nil => rfl
  | cons t rest ih =>
    show tracks_from_json (track_to_dict t :: tracks_to_json rest) = some (t :: rest)
    unfold tracks_from_json
    rw [track_roundtrip, ih]

/-- C5: serializing a track list into the cache JSON format and deserializing
it back reproduces every track field-for-field and preserves the list order. -/
theorem C5_serialization_roundtrip (ts : List Track) :
    tracks_from_json (tracks_to_json ts) = some ts :=
  tracks_roundtrip ts

/-- The dedup scan returns a subsequence of its input. -/
theorem dedup_go_sublist (fz : String → String → Nat) :
    ∀ (l : List Track) (seen : List String), (dedup_go fz l seen).Sublist l := by
  intro l
  induction l with
  | nil => intro seen; simp [dedup_go]
  | cons t rest ih =>
    intro seen
    unfold dedup_go
    by_cases h : (seen.any (fun seen_key => 85 < fz (track_key t) seen_key)) = true
    · simp only [h, if_true]
      exact (ih seen).cons t
    · simp only [h, if_false]
      exact (ih (track_key t :: seen)).cons₂ t

/-- Scan invariant: every track the scan accepts is at most 85-similar to every
key in `seen`, and accepted tracks are pairwise at most 85-similar (each later
key against each earlier key, the orientation the code tests). -/
theorem dedup_go_invariant (fz : String → String → Nat) :
    ∀ (l : List Track) (seen : List String),
      (∀ t ∈ dedup_go fz l seen, ∀ k ∈ seen, fz (track_key t) k ≤ 85)
      ∧ (dedup_go fz l seen).Pairwise
          (fun a b => fz (track_key b) (track_key a) ≤ 85) := by
  intro l
  induction l with
  | nil => intro seen; simp [dedup_go]
  | cons t rest ih =>
    intro seen
    unfold dedup_go
    by_cases h : (seen.any (fun seen_key => 85 < fz (track_key t) seen_key)) = true
    · simp only [h, if_true]
      exact ih seen
    · simp only [h, if_false]
      have hseen : ∀ k ∈ seen, fz (track_key t) k ≤ 85 := by
        intro k hk
        by_contra hgt
        push_neg at hgt
        exact h (List.any_eq_true.mpr ⟨k, hk, by simpa using hgt⟩)
      refine ⟨?_, ?_⟩
      · intro u hu k hk
        rcases List.mem_cons.mp hu with rfl | hu'
        · exact hseen k hk
        · exact (ih (track_key t :: seen)).1 u hu' k (List.mem_cons_of_mem _ hk)
      · refine List.Pairwise.cons ?_ (ih (track_key t :: seen)).2
        intro u hu
        exact (ih (track_key t :: seen)).1 u hu (track_key t) (List.mem_cons_self _ _)

/-- Every track dropped by the scan is more than 85-similar to an initial seen
key or to the key of some accepted track. -/
theorem dedup_go_dropped (fz : String → String → Nat) :
    ∀ (l : List Track) (seen : List String) (t : Track),
      t ∈ l → t ∉ dedup_go fz l seen →
      (∃ k ∈ seen, 85 < fz (track_key t) k)
      ∨ (∃ u ∈ dedup_go fz l seen, 85 < fz (track_key t) (track_key u)) := by
  intro l
  induction l with
  | nil => intro seen t ht; exact absurd ht (List.not_mem_nil t)
  | cons x rest ih =>
    intro seen t ht hout
    unfold dedup_go at hout ⊢
    by_cases h : (seen.any (fun seen_key => 85 < fz (track_key x) seen_key)) = true
    · simp only [h, if_true] at hout ⊢
      rcases List.mem_cons.mp ht with rfl | ht'
      · left
        rcases List.any_eq_true.mp h with ⟨k, hk, hsim⟩
        exact ⟨k, hk, by simpa using hsim⟩
      · exact ih seen t ht' hout
    · simp only [h, if_false] at hout ⊢
      rcases List.mem_cons.mp ht with rfl | ht'
      · exact absurd (List.mem_cons_self _ _) hout
      · have hout' : t ∉ dedup_go fz rest (track_key x :: seen) := by
          intro hmem; exact hout (List.mem_cons_of_mem _ hmem)
        rcases ih (track_key x :: seen) t ht' hout' with ⟨k, hk, hsim⟩ | ⟨u, hu, hsim⟩
        · rcases List.mem_cons.mp hk with rfl | hk'
          · right; exact ⟨x, List.mem_cons_self _ _, hsim⟩
          · left; exact ⟨k, hk', hsim⟩
        · right; exact ⟨u, List.mem_cons_of_mem _ hu, hsim⟩

/-- A list whose tracks are pairwise at most 85-similar and at most 85-similar
to every seen key passes through the scan unchanged. -/
theorem dedup_go_of_pairwise (fz : String → String → Nat) :
    ∀ (l : List Track) (seen : List String),
      l.Pairwise (fun a b => fz (track_key b) (track_key a) ≤ 85) →
      (∀ t ∈ l, ∀ k ∈ seen, fz (track_key t) k ≤ 85) →
      dedup_go fz l seen = l := by
  intro l
  induction l with
  | nil => intro seen _ _; rfl
  | cons t rest ih =>
    intro seen hpair hseen
    unfold dedup_go
    have hdup : (seen.any (fun seen_key => 85 < fz (track_key t) seen_key)) = false := by
      rw [List.any_eq_false]
      intro k hk
      have := hseen t (List.mem_cons_self _ _) k hk
      simp only [decide_eq_true_eq]
      omega
    simp only [hdup, Bool.false_eq_true, if_false]
    congr 1
    apply ih (track_key t :: seen) hpair.of_cons
    intro u hu k hk
    rcases List.mem_cons.mp hk with rfl | hk'
    · exact (List.pairwise_cons.mp hpair).1 u hu
    · exact hseen u (List.mem_cons_of_mem _ hu) k hk'

/-- C2: deduplication scans left to right — the output is a subsequence of the
input, its tracks are pairwise at most 85-similar (no near-duplicates survive),
every dropped track is more than 85-similar to some accepted track, and the
first track of the input is always kept (first-seen wins, later near-duplicates
are discarded). -/
theorem C2_deduplicate (fz : String → String → Nat) (ts : List Track) :
    (deduplicate_tracks fz ts).Sublist ts
    ∧ (deduplicate_tracks fz ts).Pairwise
        (fun a b => fz (track_key b) (track_key a) ≤ 85)
    ∧ (∀ t ∈ ts, t ∉ deduplicate_tracks fz ts →
        ∃ u ∈ deduplicate_tracks fz ts, 85 < fz (track_key t) (track_key u))
    ∧ (∀ t rest, ts = t :: rest →
        deduplicate_tracks fz ts = t :: dedup_go fz rest [track_key t]) := by
  refine ⟨dedup_go_sublist fz ts [], (dedup_go_invariant fz ts []).2, ?_, ?_⟩
  · intro t ht hout
    rcases dedup_go_dropped fz ts [] t ht hout with ⟨k, hk, _⟩ | h
    · exact absurd hk (List.not_mem_nil k)
    · exact h
  · intro t rest hts
    subst hts
    simp [deduplicate_tracks, dedup_go]

/-- C2 witness: the spec's own scenario — the same song from two providers
differing only in letter case collapses to its first occurrence, under a metric
that rates every pair of keys 100-similar. -/
theorem C2_deduplicate_witness :
    ({ title := "shape of you", artist := "ed sheeran", duration := 233 } : Track)
        ∈ [({ title := "Shape of You", artist := "Ed Sheeran", duration := 233 } : Track),
           { title := "shape of you", artist := "ed sheeran", duration := 233 }]
    ∧ ({ title := "shape of you", artist := "ed sheeran", duration := 233 } : Track)
        ∉ deduplicate_tracks (fun _ _ => 100)
            [{ title := "Shape of You", artist := "Ed Sheeran", duration := 233 },
             { title := "shape of you", artist := "ed sheeran", duration := 233 }]
    ∧ (∃ u ∈ deduplicate_tracks (fun _ _ => 100)
            [{ title := "Shape of You", artist := "Ed Sheeran", duration := 233 },
             { title := "shape of you", artist := "ed sheeran", duration := 233 }],
        85 < (fun _ _ : String => 100)
          (track_key { title := "shape of you", artist := "ed sheeran", duration := 233 })
          (track_key u))
    ∧ deduplicate_tracks (fun _ _ => 100)
            [({ title := "Shape of You", artist := "Ed Sheeran", duration := 233 } : Track),
             { title := "shape of you", artist := "ed sheeran", duration := 233 }]
        = [{ title := "Shape of You", artist := "Ed Sheeran", duration := 233 }] := by
  refine ⟨by decide, by decide, ?_, by decide⟩
  exact (C2_deduplicate (fun _ _ => 100)
      [{ title := "Shape of You", artist := "Ed Sheeran", duration := 233 },
       { title := "shape of you", artist := "ed sheeran", duration := 233 }]).2.2.1
    { title := "shape of you", artist := "ed sheeran", duration := 233 }
    (by decide) (by decide)

/-- C8: the deduplicator is idempotent — its output passes a second scan
unchanged, because accepted tracks are pairwise at most 85-similar. -/
theorem C8_deduplicate_idempotent (fz : String → String → Nat) (ts : List Track) :
    deduplicate_tracks fz (deduplicate_tracks fz ts) = deduplicate_tracks fz ts := by
  apply dedup_go_of_pairwise fz _ []
  · exact (dedup_go_invariant fz ts []).2
  · intro t _ k hk
    exact absurd hk (List.not_mem_nil k)

/-- C1: the ranker returns a permutation of its input, sorted descending by the
score `max(partial(query,title), partial(query,artist), partial(query,
artist+" "+title)) + (20 if the lowercase query is a substring of the lowercase
title or artist)`; tracks of equal score keep their pre-sort relative order
(stability, stated as: the sort fixes every equal-score fiber).  The output is a
pure function of the input sequence and query, so determinism is definitional. -/
theorem C1_rank (pz : String → String → Nat) (q : String) (ts : List Track) :
    (sort_by_relevance pz ts q).Perm ts
    ∧ (sort_by_relevance pz ts q).Pairwise
        (fun a b => calculate_score pz q.toLower b ≤ calculate_score pz q.toLower a)
    ∧ ∀ n, (sort_by_relevance pz ts q).filter
          (fun t => calculate_score pz q.toLower t == n)
        = ts.filter (fun t => calculate_score pz q.toLower t == n) := by
  set score := calculate_score pz q.toLower with hscore
  set le := fun a b : Track => decide (score b ≤ score a) with hle
  have hs : sort_by_relevance pz ts q = ts.mergeSort le := rfl
  have trans : ∀ a b c : Track, le a b → le b c → le a c := by
    intro a b c hab hbc
    simp only [hle, decide_eq_true_eq] at *
    omega
  have total : ∀ a b : Track, le a b || le b a := by
    intro a b
    simp only [hle, Bool.or_eq_true, decide_eq_true_eq]
    omega
  refine ⟨?_, ?_, ?_⟩
  · rw [hs]; exact List.mergeSort_perm ts le
  · rw [hs]
    have h := List.sorted_mergeSort trans total ts
    exact h.imp (fun hab => by simpa [hle] using hab)
  · intro n
    rw [hs]
    set p := fun t : Track => score t == n with hp
    have hmemp : ∀ x ∈ ts.filter p, p x = true := fun x hx => (List.mem_filter.mp hx).2
    have hpair : (ts.filter p).Pairwise (fun a b => le a b = true) := by
      apply List.pairwise_of_forall_mem_list
      intro a ha b hb
      have hpa : score a = n := by simpa [hp] using (List.mem_filter.mp ha).2
      have hpb : score b = n := by simpa [hp] using (List.mem_filter.mp hb).2
      simp [hle, hpa, hpb]
    have h1 : (ts.filter p).Sublist (ts.mergeSort le) :=
      List.sublist_mergeSort trans total hpair (List.filter_sublist ts)
    have h2 : ((ts.filter p).filter p).Sublist ((ts.mergeSort le).filter p) :=
      h1.filter p
    rw [List.filter_eq_self.mpr hmemp] at h2
    have h4 : ((ts.mergeSort le).filter p).length = (ts.filter p).length :=
      ((List.mergeSort_perm ts le).filter p).length_eq
    exact (h2.eq_of_length h4.symm).symm

/-- A nonnegative Python slice `l[:stop]` returns at most `stop` elements. -/
theorem pySliceTo_length_le (l : List Track) (stop : Int) (h : 0 ≤ stop) :
    (pySliceTo l stop).length ≤ stop.toNat := by
  simp only [pySliceTo, if_pos h, List.length_take]
  omega

/-- The Python slice `l[:0]` is empty. -/
theorem pySliceTo_zero (l : List Track) : pySliceTo l 0 = [] := by
  simp [pySliceTo]

/-- C4 counterexample: the claim says a call with `limit ≤ 0` fails immediately
as an invalid argument; the code performs no validation — with `limit = -1` it
returns a perfectly normal value, namely the Python slice `tracks[:-1]` (here
one of two surviving tracks), rather than failing or returning nothing. -/
theorem C4_search_counterexample :
    search (fun _ _ => 0) (fun _ _ => 0)
      (.ok [{ title := "s", artist := "a", duration := 1 },
            { title := "s", artist := "a", duration := 2 }])
      (.ok []) "song" (-1)
      = [{ title := "s", artist := "a", duration := 1 }] := by
  have hd : deduplicate_tracks (fun _ _ => 0)
      [({ title := "s", artist := "a", duration := 1 } : Track),
       { title := "s", artist := "a", duration := 2 }]
      = [{ title := "s", artist := "a", duration := 1 },
         { title := "s", artist := "a", duration := 2 }] := by decide
  have hsorted : sort_by_relevance (fun _ _ => 0)
      [({ title := "s", artist := "a", duration := 1 } : Track),
       { title := "s", artist := "a", duration := 2 }] "song"
      = [{ title := "s", artist := "a", duration := 1 },
         { title := "s", artist := "a", duration := 2 }] := by
    apply List.mergeSort_of_sorted
    refine List.pairwise_cons.mpr ⟨?_, List.pairwise_singleton _ _⟩
    intro b hb
    rcases List.mem_singleton.mp hb with rfl
    exact decide_eq_true (Nat.le_refl _)
  show pySliceTo (sort_by_relevance (fun _ _ => 0)
      (deduplicate_tracks (fun _ _ => 0)
        ([{ title := "s", artist := "a", duration := 1 },
          { title := "s", artist := "a", duration := 2 }] ++ [])) "song") (-1)
      = [{ title := "s", artist := "a", duration := 1 }]
  rw [List.append_nil, hd, hsorted]
  decide

/-- C4 amended: `search` validates nothing and never raises.  When every
provider call fails it returns the empty list; with `limit = 0` it returns the
empty list; for any `limit > 0` it returns at most `limit` tracks.  A call with
`limit ≤ 0` is not rejected as an invalid argument (see the counterexample for
the negative-limit slice behaviour). -/
theorem C4_search_amended (fz pz : String → String → Nat) (q : String) (L : Int)
    (e1 e2 : String) (r1 r2 : Except String (List Track)) :
    search fz pz (.error e1) (.error e2) q L = []
    ∧ (0 < L → (search fz pz r1 r2 q L).length ≤ L.toNat)
    ∧ search fz pz r1 r2 q 0 = [] := by
  refine ⟨?_, ?_, ?_⟩
  · show pySliceTo (sort_by_relevance pz (deduplicate_tracks fz ([] ++ [])) q) L = []
    show pySliceTo (sort_by_relevance pz (deduplicate_tracks fz []) q) L = []
    show pySliceTo (List.mergeSort [] _) L = []
    rw [List.mergeSort_nil]
    simp [pySliceTo]
  · intro hL
    exact pySliceTo_length_le _ L hL.le
  · exact pySliceTo_zero _

/-- C4 amended witness at concrete inputs. -/
theorem C4_search_amended_witness :
    search (fun _ _ => 0) (fun _ _ => 0) (.error "down") (.error "down") "q" 5 = []
    ∧ (search (fun _ _ => 0) (fun _ _ => 0) (.ok []) (.ok []) "q" 5).length ≤ (5 : Int).toNat
    ∧ search (fun _ _ => 0) (fun _ _ => 0) (.ok []) (.ok []) "q" 0 = [] := by
  refine ⟨(C4_search_amended (fun _ _ => 0) (fun _ _ => 0) "q" 5 "down" "down"
            (.ok []) (.ok [])).1, ?_, ?_⟩
  · exact (C4_search_amended (fun _ _ => 0) (fun _ _ => 0) "q" 5 "down" "down"
      (.ok []) (.ok [])).2.1 (by decide)
  · exact (C4_search_amended (fun _ _ => 0) (fun _ _ => 0) "q" 0 "down" "down"
      (.ok []) (.ok [])).2.2

/-- After deleting a user's rows, no row of that user survives any further filter. -/
theorem filter_erased (l : List CacheRow) (u : Int) (p : CacheRow → Bool)
    (hp : ∀ r, p r = true → r.user_id = u) :
    (l.filter (fun r => !(r.user_id == u))).filter p = [] := by
  induction l with
  | nil => rfl
  | cons r rest ih =>
    by_cases h : r.user_id = u
    · simpa [List.filter_cons, h] using ih
    · have hpr : p r = false := by
        cases hpr : p r
        · rfl
        · exact absurd (hp r hpr) h
      simpa [List.filter_cons, h, hpr] using ih

/-- Deleting one user's rows does not disturb a filter that only selects other
users' rows. -/
theorem filter_other (l : List CacheRow) (u : Int) (p : CacheRow → Bool)
    (hp : ∀ r, p r = true → ¬(r.user_id = u)) :
    (l.filter (fun r => !(r.user_id == u))).filter p = l.filter p := by
  induction l with
  | nil => rfl
  | cons r rest ih =>
    by_cases h : r.user_id = u
    · have hpr : p r = false := by
        cases hpr : p r
        · rfl
        · exact absurd h (hp r hpr)
      simp [List.filter_cons, h, hpr, ih]
    · simp [List.filter_cons, h, ih]

/-- If a filter selects nothing, the conjunction with any further test selects
nothing. -/
theorem filter_and_nil (l : List CacheRow) (q p : CacheRow → Bool)
    (h : l.filter q = []) : l.filter (fun r => q r && p r) = [] := by
  induction l with
  | nil => rfl
  | cons r rest ih =>
    rw [List.filter_cons] at h
    cases hq : q r
    · rw [hq] at h
      simp only [Bool.false_eq_true, if_false] at h
      simpa [List.filter_cons, hq] using ih h
    · rw [hq] at h
      simp at h

/-- If a filter selects exactly `[c]` and `c` passes a further test, the
conjunction of the two tests also selects exactly `[c]`. -/
theorem filter_and_single (l : List CacheRow) (q p : CacheRow → Bool) (c : CacheRow)
    (hf : l.filter q = [c]) (hp : p c = true) :
    l.filter (fun r => q r && p r) = [c] := by
  induction l with
  | nil => exact absurd hf (by simp)
  | cons r rest ih =>
    rw [List.filter_cons] at hf
    cases hq : q r
    · rw [hq] at hf
      simp only [Bool.false_eq_true, if_false] at hf
      simpa [List.filter_cons, hq] using ih hf
    · rw [hq] at hf
      simp only [if_true] at hf
      rw [List.cons_eq_cons] at hf
      obtain ⟨rfl, hrest⟩ := hf
      simp [List.filter_cons, hq, hp, filter_and_nil rest q p hrest]

/-- A filter over mapped rows commutes with the map when the map preserves the
filter's test. -/
theorem filter_map_pres (l : List CacheRow) (p : CacheRow → Bool) (f : CacheRow → CacheRow)
    (hp : ∀ r, p (f r) = p r) : (l.map f).filter p = (l.filter p).map f := by
  induction l with
  | nil => rfl
  | cons r rest ih =>
    cases h : p r
    · simp [List.filter_cons, hp r, h, ih]
    · simp [List.filter_cons, hp r, h, ih]

/-- When the state holds no fresh row for the user, `get_user_cache` is absent. -/
theorem get_user_cache_absent (st : CacheState) (u now : Int)
    (h : ∀ r ∈ st.rows, r.user_id = u → r.created_at ≤ now - CACHE_EXPIRY_SECONDS) :
    get_user_cache st u now = none := by
  unfold get_user_cache
  have hnil : st.rows.filter (fun r => r.user_id == u && row_fresh now r) = [] := by
    rw [List.filter_eq_nil_iff]
    intro r hr
    simp only [Bool.and_eq_true, beq_iff_eq, not_and]
    intro hu
    have := h r hr hu
    simp only [row_fresh, decide_eq_true_eq]
    omega
  rw [hnil]
  rfl

/-- When the state holds exactly one row for the user and it is fresh,
`get_user_cache` returns it. -/
theorem get_user_cache_active (st : CacheState) (u now : Int) (c : CacheRow)
    (hf : st.rows.filter (fun r => r.user_id == u) = [c])
    (hfresh : row_fresh now c = true) :
    get_user_cache st u now = some c := by
  unfold get_user_cache
  rw [filter_and_single st.rows _ _ c hf hfresh]
  rfl

/-- Updating the cursor of an active session rewrites exactly that session's
row, and a subsequent `get_offset` reads the new cursor back. -/
theorem update_offset_active (st : CacheState) (u now x : Int) (c : CacheRow)
    (hf : st.rows.filter (fun r => r.user_id == u) = [c])
    (hfresh : row_fresh now c = true) :
    (update_offset st u x now).rows.filter (fun r => r.user_id == u)
      = [{ c with current_offset := x }]
    ∧ get_offset (update_offset st u x now) u now = x := by
  have hgc : get_user_cache st u now = some c := get_user_cache_active st u now c hf hfresh
  have hrows : (update_offset st u x now).rows
      = st.rows.map (fun r => if r.id == c.id then { r with current_offset := x } else r) := by
    unfold update_offset
    rw [hgc]
  have hfilter : (update_offset st u x now).rows.filter (fun r => r.user_id == u)
      = [{ c with current_offset := x }] := by
    rw [hrows,
        filter_map_pres st.rows _ _ (fun r => by by_cases h : r.id = c.id <;> simp [h]),
        hf]
    simp
  refine ⟨hfilter, ?_⟩
  have hgc2 : get_user_cache (update_offset st u x now) u now
      = some { c with current_offset := x } :=
    get_user_cache_active _ u now _ hfilter (by simpa [row_fresh] using hfresh)
  unfold get_offset
  rw [hgc2]

/-- Saving a search for one user leaves every other user's session untouched. -/
theorem get_user_cache_save_other (st : CacheState) (u : Int) (q : String)
    (ts : List Track) (now v t2 : Int) (hv : v ≠ u) :
    get_user_cache (save_search st u q ts now) v t2 = get_user_cache st v t2 := by
  have hp : ∀ r : CacheRow, (r.user_id == v && row_fresh t2 r) = true → ¬(r.user_id = u) := by
    intro r hr
    have hru : r.user_id = v := by
      simp only [Bool.and_eq_true, beq_iff_eq] at hr
      exact hr.1
    rw [hru]
    exact hv
  have hvu : u ≠ v := Ne.symm hv
  have hrows : (save_search st u q ts now).rows
      = st.rows.filter (fun r => !(r.user_id == u)) ++
        [{ id := st.next_id, user_id := u, query := q, results := tracks_to_json ts,
           current_offset := 0, created_at := now }] := rfl
  unfold get_user_cache
  rw [hrows, List.filter_append, filter_other st.rows u _ hp]
  have hnew :
      ([{ id := st.next_id, user_id := u, query := q, results := tracks_to_json ts,
          current_offset := 0, created_at := now }] : List CacheRow).filter
        (fun r => r.user_id == v && row_fresh t2 r) = [] := by
    simp [List.filter_cons, hvu]
  rw [hnew, List.append_nil]

/-- C6: after `save_search(u, q, ts)` the user has exactly one cached row; its
cursor is 0, reading it back yields exactly `ts`, and every other user's
`get_cached_tracks`/`get_offset` at any time are unchanged. -/
theorem C6_save_search (st : CacheState) (u : Int) (q : String) (ts : List Track) (now : Int) :
    ∃ c, (save_search st u q ts now).rows.filter (fun r => r.user_id == u) = [c]
      ∧ c.current_offset = 0
      ∧ get_cached_tracks (save_search st u q ts now) u now = some ts
      ∧ get_offset (save_search st u q ts now) u now = 0
      ∧ ∀ v, v ≠ u → ∀ t2,
          get_cached_tracks (save_search st u q ts now) v t2 = get_cached_tracks st v t2
          ∧ get_offset (save_search st u q ts now) v t2 = get_offset st v t2 := by
  have hrows : (save_search st u q ts now).rows
      = st.rows.filter (fun r => !(r.user_id == u)) ++
        [{ id := st.next_id, user_id := u, query := q, results := tracks_to_json ts,
           current_offset := 0, created_at := now }] := rfl
  have hfilter : (save_search st u q ts now).rows.filter (fun r => r.user_id == u)
      = [{ id := st.next_id, user_id := u, query := q, results := tracks_to_json ts,
           current_offset := 0, created_at := now }] := by
    rw [hrows, List.filter_append,
        filter_erased st.rows u _ (fun r h => by simpa using h)]
    simp
  have hfresh : row_fresh now
      { id := st.next_id, user_id := u, query := q, results := tracks_to_json ts,
        current_offset := 0, created_at := now } = true := by
    simp only [row_fresh, CACHE_EXPIRY_SECONDS, decide_eq_true_eq]
    omega
  have hgc := get_user_cache_active _ u now _ hfilter hfresh
  refine ⟨_, hfilter, rfl, ?_, ?_, ?_⟩
  · unfold get_cached_tracks
    rw [hgc]
    exact tracks_roundtrip ts
  · unfold get_offset
    rw [hgc]
  · intro v hv t2
    have h := get_user_cache_save_other st u q ts now v t2 hv
    constructor
    · unfold get_cached_tracks
      rw [h]
    · unfold get_offset
      rw [h]

/-- C6 witness: saving for user 1 makes the saved list readable for user 1 and
leaves user 2's view unchanged. -/
theorem C6_save_search_witness :
    get_cached_tracks (save_search { rows := [], next_id := 0 } 1 "q" [sampleTrack] 0) 1 0
      = some [sampleTrack]
    ∧ get_offset (save_search { rows := [], next_id := 0 } 1 "q" [sampleTrack] 0) 2 0
      = get_offset { rows := [], next_id := 0 } 2 0 := by
  obtain ⟨c, _, _, h3, _, h5⟩ :=
    C6_save_search { rows := [], next_id := 0 } 1 "q" [sampleTrack] 0
  exact ⟨h3, (h5 2 (by decide) 0).2⟩

/-- C7 counterexample: a session of age exactly one hour (3600 s) is *not*
returned, contrary to the claim's "age at most 1 hour": the freshness test is
strict (`created_at > now - 1h`), so at the boundary the session with stored
cursor 7 reads as absent (`none`, offset 0). -/
theorem C7_expiry_counterexample :
    (3600 : Int) - agedRow.created_at ≤ CACHE_EXPIRY_SECONDS
    ∧ agedState.rows.filter (fun r => r.user_id == 1) = [agedRow]
    ∧ agedRow.current_offset = 7
    ∧ get_cached_tracks agedState 1 3600 = none
    ∧ get_offset agedState 1 3600 = 0 := by
  decide

/-- C7 amended: a session whose age is at least the 1-hour window (or no
session at all) is indistinguishable from ABSENT — `get_cached_tracks` is
absent, `get_offset` is 0 and `update_offset` changes nothing; a single session
of age strictly less than 1 hour is returned with its stored track list and
cursor. -/
theorem C7_expiry_amended (st : CacheState) (u off now : Int) :
    ((∀ r ∈ st.rows, r.user_id = u → r.created_at ≤ now - CACHE_EXPIRY_SECONDS) →
       get_cached_tracks st u now = none
       ∧ get_offset st u now = 0
       ∧ update_offset st u off now = st)
    ∧ (∀ c, st.rows.filter (fun r => r.user_id == u) = [c] →
        now - c.created_at < CACHE_EXPIRY_SECONDS →
        get_cached_tracks st u now = tracks_from_json c.results
        ∧ get_offset st u now = c.current_offset) := by
  constructor
  · intro h
    have hgc := get_user_cache_absent st u now h
    refine ⟨?_, ?_, ?_⟩
    · unfold get_cached_tracks
      rw [hgc]
    · unfold get_offset
      rw [hgc]
    · unfold update_offset
      rw [hgc]
  · intro c hf hage
    have hfresh : row_fresh now c = true := by
      simp only [row_fresh, decide_eq_true_eq]
      omega
    have hgc := get_user_cache_active st u now c hf hfresh
    constructor
    · unfold get_cached_tracks
      rw [hgc]
    · unfold get_offset
      rw [hgc]

/-- C7 amended witness: the aged session read one hour later is absent in every
observable way, and read 100 seconds after creation it is fully visible. -/
theorem C7_expiry_amended_witness :
    get_cached_tracks agedState 1 7200 = none
    ∧ get_offset agedState 1 7200 = 0
    ∧ update_offset agedState 1 3 7200 = agedState
    ∧ get_cached_tracks agedState 1 100 = tracks_from_json agedRow.results
    ∧ get_offset agedState 1 100 = agedRow.current_offset := by
  have h1 := (C7_expiry_amended agedState 1 3 7200).1 (by decide)
  have h2 := (C7_expiry_amended agedState 1 3 100).2 agedRow (by decide) (by decide)
  exact ⟨h1.1, h1.2.1, h1.2.2, h2.1, h2.2⟩

/-- C9: for a user with an active session over `tracks`, forward paging adds
the fixed page size `MAX_RESULTS_PER_PAGE = 5` to the cursor exactly when the
resulting offset stays strictly below `tracks.length` (otherwise the stored
cursor is untouched, so the cursor never advances beyond the list length), and
backward paging stores `max 0 (cursor - 5)`, which is never negative. -/
theorem C9_pagination (st : CacheState) (u now : Int) (c : CacheRow) (tracks : List Track)
    (hf : st.rows.filter (fun r => r.user_id == u) = [c])
    (hfresh : row_fresh now c = true)
    (hres : tracks_from_json c.results = some tracks)
    (hne : tracks ≠ []) :
    MAX_RESULTS_PER_PAGE = 5
    ∧ get_offset (next_page st u true now) u now
        = (if (tracks.length : Int) ≤ c.current_offset + MAX_RESULTS_PER_PAGE
           then c.current_offset
           else c.current_offset + MAX_RESULTS_PER_PAGE)
    ∧ (c.current_offset ≤ (tracks.length : Int) →
        get_offset (next_page st u true now) u now ≤ (tracks.length : Int))
    ∧ get_offset (prev_page st u true now) u now
        = max 0 (c.current_offset - MAX_RESULTS_PER_PAGE)
    ∧ 0 ≤ get_offset (prev_page st u true now) u now := by
  have hgc := get_user_cache_active st u now c hf hfresh
  have hct : get_cached_tracks st u now = some tracks := by
    unfold get_cached_tracks
    rw [hgc]
    exact hres
  have hoff : get_offset st u now = c.current_offset := by
    unfold get_offset
    rw [hgc]
  obtain ⟨t, ts', rfl⟩ : ∃ t ts', tracks = t :: ts' := by
    cases tracks with
    | nil => exact absurd rfl hne
    | cons t ts' => exact ⟨t, ts', rfl⟩
  have hnext : next_page st u true now
      = if (((t :: ts').length : Int) ≤ c.current_offset + MAX_RESULTS_PER_PAGE) then st
        else update_offset st u (c.current_offset + MAX_RESULTS_PER_PAGE) now := by
    simp only [next_page, hct, hoff]
  have hprev : prev_page st u true now
      = update_offset st u (max 0 (c.current_offset - MAX_RESULTS_PER_PAGE)) now := by
    simp only [prev_page, hct, hoff]
  have ha : get_offset (next_page st u true now) u now
      = (if (((t :: ts').length : Int) ≤ c.current_offset + MAX_RESULTS_PER_PAGE)
         then c.current_offset
         else c.current_offset + MAX_RESULTS_PER_PAGE) := by
    rw [hnext]
    by_cases h5 : (((t :: ts').length : Int) ≤ c.current_offset + MAX_RESULTS_PER_PAGE)
    · rw [if_pos h5, if_pos h5, hoff]
    · rw [if_neg h5, if_neg h5]
      exact (update_offset_active st u now _ c hf hfresh).2
  have hc : get_offset (prev_page st u true now) u now
      = max 0 (c.current_offset - MAX_RESULTS_PER_PAGE) := by
    rw [hprev]
    exact (update_offset_active st u now _ c hf hfresh).2
  refine ⟨rfl, ha, ?_, hc, ?_⟩
  · intro hcur
    rw [ha]
    split_ifs with h <;> omega
  · rw [hc]
    exact le_max_left 0 _

/-- C9 witness: with one cached track and cursor 0, next-page leaves the cursor
at 0 (0 + 5 would pass the end) and prev-page keeps it at 0 (floored). -/
theorem C9_pagination_witness :
    get_offset (next_page sampleState 1 true 0) 1 0 = 0
    ∧ get_offset (prev_page sampleState 1 true 0) 1 0 = 0 := by
  obtain ⟨-, ha, -, hc, -⟩ :=
    C9_pagination sampleState 1 0 sampleRow [sampleTrack]
      (by decide) (by decide) (tracks_roundtrip [sampleTrack]) (by decide)
  constructor
  · rw [ha]
    decide
  · rw [hc]
    decide

end MusicBot
